import Mathlib

/-!
Verification of the keyset-pagination core of `mongo-cursor-pagination`
(`src/aggregate-paginated.ts`), shallowly embedded in Lean 4.

The orchestrator `aggregatePaginated` lives in `src/aggregate-paginated.ts`
and is translated directly.  Its helpers (`normalizeDirectionParams`,
`buildCursor`, `buildQueryFromCursor`, `encodeCursor` and the implicit
cursor decoder) are imported by the source from `./utils`, a file that is
not available; those are modelled from the specification (each such
definition carries a doc comment starting with `Modelled from the spec:`).
The MongoDB collection is an external collaborator: it is modelled as a
list of documents, an aggregation stage list, and an executor giving the
stages their documented meaning (filter, skip, sort, limit).
-/

namespace MongoPagination

/-- A field value stored in a document: heterogeneous scalar data
(null, numbers, strings; dates and object identifiers are representable
as numbers or strings). -/
inductive Value where
  | vNull : Value
  | vInt (n : Int) : Value
  | vStr (s : String) : Value
deriving DecidableEq

/-- A document is an ordered field-name/value mapping. -/
abbrev Document := List (String × Value)

/-- A decoded cursor position: field-name/value pairs for each field of the
active sort specification. -/
abbrev Position := List (String × Value)

/-- A sort specification: an ordered mapping from field name to direction
(`1` ascending, `-1` descending), as in the source's `Sort` type. -/
abbrev SortSpec := List (String × Int)

/-! ### CursorCodec

Modelled from the spec: the `encodeCursor` import from `./utils` and its
inverse.  The spec requires an opaque, deterministic, reversible string
encoding of a position ("decode(encode(p)) == p", URL-safe token).  We use
a simple length-prefixed serialization; lengths are written in unary with
a `:` terminator, which keeps the format canonical and order-stable. -/

/-- Unary encoding of a natural number, terminated by a colon. -/
def encNat (n : Nat) : List Char :=
  List.replicate n '1' ++ [':']

/-- Length-prefixed encoding of a character list. -/
def encChars (s : List Char) : List Char :=
  encNat s.length ++ s

/-- Encoding of one field value, tagged by type. -/
def encVal : Value → List Char
  | .vNull => ['n']
  | .vInt (.ofNat n) => 'i' :: 'p' :: encNat n
  | .vInt (.negSucc n) => 'i' :: 'm' :: encNat n
  | .vStr s => 's' :: encChars s.data

/-- Encoding of one field-name/value pair. -/
def encPair (p : String × Value) : List Char :=
  encChars p.1.data ++ encVal p.2

/-- Encoding of a whole position: pair count followed by the pairs. -/
def encPos (l : Position) : List Char :=
  encNat l.length ++ l.foldr (fun p acc => encPair p ++ acc) []

/-- Modelled from the spec: `encodeCursor` (from `./utils`): serialize a
position into an opaque cursor string. -/
def encodeCursor (p : Position) : String :=
  String.mk (encPos p)

/-- Parse a unary-encoded natural number, returning the remaining input. -/
def decNat : List Char → Option (Nat × List Char)
  | [] => none
  | c :: rest =>
    if c = ':' then some (0, rest)
    else if c = '1' then (decNat rest).map (fun r => (r.1 + 1, r.2))
    else none

/-- Read exactly `n` characters, returning them and the remaining input. -/
def readN : Nat → List Char → Option (List Char × List Char)
  | 0, l => some ([], l)
  | _ + 1, [] => none
  | n + 1, c :: rest => (readN n rest).map (fun r => (c :: r.1, r.2))

/-- Parse a length-prefixed character list. -/
def decChars (l : List Char) : Option (List Char × List Char) := do
  let (n, r) ← decNat l
  readN n r

/-- Parse one encoded field value. -/
def decVal : List Char → Option (Value × List Char)
  | [] => none
  | c :: rest =>
    if c = 'n' then some (.vNull, rest)
    else if c = 'i' then
      match rest with
      | [] => none
      | d :: rest' =>
        if d = 'p' then (decNat rest').map (fun r => (.vInt (Int.ofNat r.1), r.2))
        else if d = 'm' then (decNat rest').map (fun r => (.vInt (Int.negSucc r.1), r.2))
        else none
    else if c = 's' then (decChars rest).map (fun r => (.vStr (String.mk r.1), r.2))
    else none

/-- Parse one encoded field-name/value pair. -/
def decPair (l : List Char) : Option ((String × Value) × List Char) := do
  let (cs, r) ← decChars l
  let (v, r') ← decVal r
  some ((String.mk cs, v), r')

/-- Parse exactly `n` encoded pairs. -/
def decPairs : Nat → List Char → Option (Position × List Char)
  | 0, l => some ([], l)
  | n + 1, l => do
    let (p, r) ← decPair l
    let (ps, r') ← decPairs n r
    some (p :: ps, r')

/-- Parse a whole encoded position; succeeds only if the input is consumed
exactly. -/
def decPos (l : List Char) : Option Position := do
  let (n, r) ← decNat l
  let (ps, r') ← decPairs n r
  if r'.isEmpty then some ps else none

/-- Modelled from the spec: the cursor decoder paired with `encodeCursor`
(`decode` of the CursorCodec); fails on malformed input. -/
def decodeCursor (s : String) : Option Position :=
  decPos s.data

/-! ### Codec round-trip lemmas -/

theorem decNat_encNat (n : Nat) (rest : List Char) :
    decNat (encNat n ++ rest) = some (n, rest) := by
  induction n with
  | zero => simp [encNat, decNat]
  | succ n ih =>
    have h1 : ¬ (('1' : Char) = ':') := by decide
    simp only [encNat, List.replicate_succ, List.cons_append, decNat, if_neg h1, if_pos rfl]
    have e : ((List.replicate n '1').append [':']).append rest = encNat n ++ rest := rfl
    rw [e, ih]
    rfl

theorem readN_append (l rest : List Char) :
    readN l.length (l ++ rest) = some (l, rest) := by
  induction l with
  | nil => simp [readN]
  | cons c cs ih => simp [readN, ih]

theorem decChars_encChars (s rest : List Char) :
    decChars (encChars s ++ rest) = some (s, rest) := by
  simp [decChars, encChars, List.append_assoc, decNat_encNat, readN_append]

theorem string_mk_data (s : String) : String.mk s.data = s := rfl

theorem decVal_encVal (v : Value) (rest : List Char) :
    decVal (encVal v ++ rest) = some (v, rest) := by
  cases v with
  | vNull => simp [encVal, decVal]
  | vInt n =>
    cases n with
    | ofNat m => simp [encVal, decVal, decNat_encNat]
    | negSucc m => simp [encVal, decVal, decNat_encNat]
  | vStr s => simp [encVal, decVal, decChars_encChars, string_mk_data]

theorem decPair_encPair (p : String × Value) (rest : List Char) :
    decPair (encPair p ++ rest) = some (p, rest) := by
  obtain ⟨f, v⟩ := p
  simp [decPair, encPair, List.append_assoc, decChars_encChars, decVal_encVal,
    string_mk_data]

theorem decPairs_enc (l : Position) (rest : List Char) :
    decPairs l.length ((l.foldr (fun p acc => encPair p ++ acc) []) ++ rest) =
      some (l, rest) := by
  induction l with
  | nil => simp [decPairs]
  | cons p ps ih =>
    simp [decPairs, List.append_assoc, decPair_encPair, ih]

theorem decPos_encPos (p : Position) : decPos (encPos p) = some p := by
  have h2 := decPairs_enc p []
  rw [List.append_nil] at h2
  rw [decPos, encPos, decNat_encNat]
  simp [h2]

/-! ### Values, documents and ordering -/

/-- Type bracket used to order heterogeneous values, as document stores
order across types. -/
def valueRank : Value → Nat
  | .vNull => 0
  | .vInt _ => 1
  | .vStr _ => 2

/-- Total comparison of two field values: first by type bracket, then by
the natural order inside the bracket. -/
def vcmp : Value → Value → Ordering
  | .vInt a, .vInt b => compare a b
  | .vStr a, .vStr b => compare a b
  | a, b => compare (valueRank a) (valueRank b)

/-- Strict comparison used by the range query's strictly-greater /
strictly-less conditions. -/
def vlt (a b : Value) : Bool := vcmp a b = .lt

/-- Field access: the value stored under a field name, `vNull` when the
field is absent. -/
def getField (d : Document) (f : String) : Value :=
  match d.find? (fun p => p.1 = f) with
  | some p => p.2
  | none => .vNull

/-- Modelled from the spec: `buildCursor` (from `./utils`): extract the
document's position under the active sort specification — the value of
each sort field, in sort-field order. -/
def buildCursor (document : Document) (sort : SortSpec) : Position :=
  sort.map (fun p => (p.1, getField document p.1))

/-- Modelled from the spec: `buildQueryFromCursor` (from `./utils`): the
keyset "seek" predicate.  For sort fields `f1..fn` with directions
`d1..dn` and cursor values `v1..vn`, it is the disjunction over `i` of
"fields before `i` equal their cursor values, and field `i` strictly
greater (ascending) or strictly less (descending) than its cursor
value". -/
def buildQueryFromCursor : SortSpec → Position → Document → Bool
  | [], _, _ => false
  | (f, d) :: rest, pos, doc =>
    let pv := getField pos f
    let dv := getField doc f
    (if 0 ≤ d then vlt pv dv else vlt dv pv) ||
      (dv = pv && buildQueryFromCursor rest pos doc)

/-- Lexicographic document comparison under a sort specification:
earlier fields take precedence, a negative direction flips the
comparison of that field. -/
def docCmp : SortSpec → Document → Document → Ordering
  | [], _, _ => .eq
  | (f, d) :: rest, a, b =>
    let c := vcmp (getField a f) (getField b f)
    let c := if 0 ≤ d then c else c.swap
    match c with
    | .eq => docCmp rest a b
    | o => o

/-- Non-strict order used by the sort stage. -/
def docLe (s : SortSpec) (a b : Document) : Bool :=
  ¬ docCmp s a b = .gt

/-- Insert a document into a list sorted by `le`, before the first
element it is `le`-below-or-equal to. -/
def insertBy (le : Document → Document → Bool) (a : Document) :
    List Document → List Document
  | [] => [a]
  | b :: l => if le a b then a :: b :: l else b :: insertBy le a l

/-- Stable insertion sort of the documents under the sort
specification. -/
def sortDocs (s : SortSpec) (l : List Document) : List Document :=
  l.foldr (fun d acc => insertBy (docLe s) d acc) []

/-! ### Aggregation stages (the data-source contract)

The collection is an external collaborator; the spec's data-source
contract asks for a staged query executor (filter → match → skip → sort →
limit) over an ordered document list, and a count of the documents
matching the caller's pipeline alone. -/

/-- One aggregation stage, as appended by the paginator.  The
caller-supplied pipeline is an opaque list of such stages. -/
inductive Stage where
  | matchStage (pred : Document → Bool) : Stage
  | skipStage (n : Nat) : Stage
  | sortStage (s : SortSpec) : Stage
  | limitStage (n : Nat) : Stage

/-- Meaning of one stage over an ordered document list. -/
def runStage (st : Stage) (docs : List Document) : List Document :=
  match st with
  | .matchStage pred => docs.filter pred
  | .skipStage n => docs.drop n
  | .sortStage s => sortDocs s docs
  | .limitStage n => docs.take n

/-- Execute a stage list from left to right. -/
def runPipeline (stages : List Stage) (docs : List Document) : List Document :=
  stages.foldl (fun acc st => runStage st acc) docs

/-- The collection's `countDocuments` on the caller-supplied pipeline
alone (no cursor match, skip, sort or limit stages). -/
def countDocuments (collection : List Document) (pipeline : List Stage) : Nat :=
  (runPipeline pipeline collection).length

/-! ### DirectionNormalizer -/

/-- Errors surfaced by the core (spec section 7). -/
inductive PaginationError where
  | malformedCursor : PaginationError
  | missingLimit : PaginationError
deriving DecidableEq

/-- The canonical internal representation of the pagination parameters. -/
structure NormalizedParams where
  limit : Nat
  cursor : Option Position
  sort : SortSpec
  paginatingBackwards : Bool
deriving DecidableEq

/-- Modelled from the spec: invert every field's direction of a sort
specification (descending becomes ascending and vice versa). -/
def invertSort (s : SortSpec) : SortSpec :=
  s.map (fun p => (p.1, -p.2))

/-- Modelled from the spec: append the synthetic unique tie-break field
`_id` unless the caller's sort specification already names it, so the
active sort is a total order. -/
def appendTieBreak (s : SortSpec) : SortSpec :=
  if s.any (fun p => p.1 = "_id") then s else s ++ [("_id", 1)]

/-- Modelled from the spec: `limit = first ?? last`; when neither is
supplied the call fails with `MissingLimit`. -/
def resolveLimit (first last : Option Nat) : Except PaginationError Nat :=
  match first with
  | some n => .ok n
  | none =>
    match last with
    | some n => .ok n
    | none => .error .missingLimit

/-- Modelled from the spec: `cursor = after ?? before`, decoded via the
CursorCodec when present; a string that fails to decode raises
`MalformedCursor`. -/
def resolveCursor (after before : Option String) :
    Except PaginationError (Option Position) :=
  match after with
  | some s =>
    match decodeCursor s with
    | some p => .ok (some p)
    | none => .error .malformedCursor
  | none =>
    match before with
    | some s =>
      match decodeCursor s with
      | some p => .ok (some p)
      | none => .error .malformedCursor
    | none => .ok none

/-- Modelled from the spec: `normalizeDirectionParams` (from `./utils`).
Backward iff a backward-style argument (`last` or `before`) is present;
`limit = first ?? last`; cursor from `after ?? before`; the sort is
inverted when paginating backward and then given the `_id` tie-break. -/
def normalizeDirectionParams (first : Option Nat) (after : Option String)
    (last : Option Nat) (before : Option String) (sort : SortSpec) :
    Except PaginationError NormalizedParams :=
  let paginatingBackwards := last.isSome || before.isSome
  match resolveLimit first last, resolveCursor after before with
  | .ok limit, .ok cursor =>
    .ok { limit := limit
          cursor := cursor
          sort := appendTieBreak (if paginatingBackwards then invertSort sort else sort)
          paginatingBackwards := paginatingBackwards }
  | .error e, _ => .error e
  | .ok _, .error e => .error e

/-! ### Paginator (`aggregatePaginated`, translated from
`src/aggregate-paginated.ts`) -/

/-- The connection result shape. -/
structure PageInfo where
  count : Nat
  totalCount : Nat
  startCursor : Option String
  endCursor : Option String
  hasPreviousPage : Bool
  hasNextPage : Bool
deriving DecidableEq

/-- The Relay-style connection: edges (cursor/node pairs) plus page
info. -/
structure AggregatePaginatedResult where
  edges : List (String × Document)
  pageInfo : PageInfo
deriving DecidableEq

/-- The data query the paginator hands to the collection: the
caller-supplied pipeline followed by the cursor match (universal
predicate when no cursor), skip, sort, and `limit + 1` stages — lines
61–71 of the source. -/
def fetchedDocuments (collection : List Document) (pipeline : List Stage)
    (skip : Option Nat) (np : NormalizedParams) : List Document :=
  runPipeline (pipeline ++
    [ .matchStage (match np.cursor with
        | some c => buildQueryFromCursor np.sort c
        | none => fun _ => true),
      .skipStage (skip.getD 0),
      .sortStage np.sort,
      .limitStage (np.limit + 1) ]) collection

/-- The overfetch probe: whether the extra `(limit+1)`-th document exists
(`Boolean(allDocuments[limit])`, lines 75–76 of the source). -/
def hasMoreOf (allDocuments : List Document) (limit : Nat) : Bool :=
  (allDocuments[limit]?).isSome

/-- The body of the successful branch of the paginator (lines 55–99 of
the source): count the pipeline matches, run the data query, probe for
the extra document, trim (and reverse when paginating backwards), build
edges and assemble the page info. -/
def assembleConnection (collection : List Document) (pipeline : List Stage)
    (after before : Option String) (skip : Option Nat)
    (np : NormalizedParams) : AggregatePaginatedResult :=
  let count := countDocuments collection pipeline
  let allDocuments := fetchedDocuments collection pipeline skip np
  let hasMore := hasMoreOf allDocuments np.limit
  let trimmed := allDocuments.take np.limit
  let desiredDocuments := if np.paginatingBackwards then trimmed.reverse else trimmed
  let edges := desiredDocuments.map
    (fun document => (encodeCursor (buildCursor document np.sort), document))
  { edges := edges
    pageInfo :=
      { count := desiredDocuments.length
        totalCount := count
        startCursor := edges.head?.map Prod.fst
        endCursor := edges.getLast?.map Prod.fst
        hasPreviousPage := if np.paginatingBackwards then hasMore else after.isSome
        hasNextPage := if np.paginatingBackwards then before.isSome else hasMore } }

/-- Translated from `src/aggregate-paginated.ts`: normalize the request,
then assemble the connection from the count query and the data query. -/
def aggregatePaginated (collection : List Document) (pipeline : List Stage)
    (first : Option Nat) (after : Option String) (last : Option Nat)
    (before : Option String) (skip : Option Nat) (originalSort : SortSpec) :
    Except PaginationError AggregatePaginatedResult :=
  match normalizeDirectionParams first after last before originalSort with
  | .error e => .error e
  | .ok np => .ok (assembleConnection collection pipeline after before skip np)

deriving instance DecidableEq for Except

/-! ### Helper lemmas -/

theorem aggregate_ok_inv {collection : List Document} {pipeline : List Stage}
    {first : Option Nat} {after : Option String} {last : Option Nat}
    {before : Option String} {skip : Option Nat} {originalSort : SortSpec}
    {np : NormalizedParams} {r : AggregatePaginatedResult}
    (hn : normalizeDirectionParams first after last before originalSort = .ok np)
    (h : aggregatePaginated collection pipeline first after last before skip originalSort = .ok r) :
    r = assembleConnection collection pipeline after before skip np := by
  simp only [aggregatePaginated, hn, Except.ok.injEq] at h
  exact h.symm

theorem assemble_edges (collection : List Document) (pipeline : List Stage)
    (after before : Option String) (skip : Option Nat) (np : NormalizedParams) :
    (assembleConnection collection pipeline after before skip np).edges =
      (if np.paginatingBackwards
        then ((fetchedDocuments collection pipeline skip np).take np.limit).reverse
        else (fetchedDocuments collection pipeline skip np).take np.limit).map
        (fun document => (encodeCursor (buildCursor document np.sort), document)) := rfl

theorem assemble_totalCount (collection : List Document) (pipeline : List Stage)
    (after before : Option String) (skip : Option Nat) (np : NormalizedParams) :
    (assembleConnection collection pipeline after before skip np).pageInfo.totalCount =
      countDocuments collection pipeline := rfl

theorem assemble_count (collection : List Document) (pipeline : List Stage)
    (after before : Option String) (skip : Option Nat) (np : NormalizedParams) :
    (assembleConnection collection pipeline after before skip np).pageInfo.count =
      (if np.paginatingBackwards
        then ((fetchedDocuments collection pipeline skip np).take np.limit).reverse
        else (fetchedDocuments collection pipeline skip np).take np.limit).length := rfl

theorem assemble_hasPrev (collection : List Document) (pipeline : List Stage)
    (after before : Option String) (skip : Option Nat) (np : NormalizedParams) :
    (assembleConnection collection pipeline after before skip np).pageInfo.hasPreviousPage =
      (if np.paginatingBackwards
        then hasMoreOf (fetchedDocuments collection pipeline skip np) np.limit
        else after.isSome) := rfl

theorem assemble_hasNext (collection : List Document) (pipeline : List Stage)
    (after before : Option String) (skip : Option Nat) (np : NormalizedParams) :
    (assembleConnection collection pipeline after before skip np).pageInfo.hasNextPage =
      (if np.paginatingBackwards
        then before.isSome
        else hasMoreOf (fetchedDocuments collection pipeline skip np) np.limit) := rfl

theorem assemble_startCursor (collection : List Document) (pipeline : List Stage)
    (after before : Option String) (skip : Option Nat) (np : NormalizedParams) :
    (assembleConnection collection pipeline after before skip np).pageInfo.startCursor =
      ((assembleConnection collection pipeline after before skip np).edges.head?).map
        Prod.fst := rfl

theorem assemble_endCursor (collection : List Document) (pipeline : List Stage)
    (after before : Option String) (skip : Option Nat) (np : NormalizedParams) :
    (assembleConnection collection pipeline after before skip np).pageInfo.endCursor =
      ((assembleConnection collection pipeline after before skip np).edges.getLast?).map
        Prod.fst := rfl

theorem normalize_ok_fields {first : Option Nat} {after : Option String}
    {last : Option Nat} {before : Option String} {s : SortSpec}
    {np : NormalizedParams}
    (hn : normalizeDirectionParams first after last before s = .ok np) :
    np.paginatingBackwards = (last.isSome || before.isSome) ∧
    np.sort = appendTieBreak (if last.isSome || before.isSome then invertSort s else s) := by
  unfold normalizeDirectionParams at hn
  cases h1 : resolveLimit first last with
  | error e => simp [h1] at hn
  | ok lim =>
    cases h2 : resolveCursor after before with
    | error e => simp [h1, h2] at hn
    | ok cur =>
      simp only [h1, h2, Except.ok.injEq] at hn
      subst hn
      exact ⟨rfl, rfl⟩

theorem buildCursor_map_fst (d : Document) (s : SortSpec) :
    buildCursor d s = (s.map Prod.fst).map (fun f => (f, getField d f)) := by
  rw [buildCursor, List.map_map]
  exact rfl

theorem map_fst_invertSort (s : SortSpec) :
    (invertSort s).map Prod.fst = s.map Prod.fst := by
  rw [invertSort, List.map_map]
  exact rfl

theorem any_id_invertSort (s : SortSpec) :
    ((invertSort s).any fun p => p.1 = "_id") = (s.any fun p => p.1 = "_id") := by
  rw [invertSort, List.any_map]
  exact rfl

theorem map_fst_appendTieBreak_invert (s : SortSpec) :
    (appendTieBreak (invertSort s)).map Prod.fst = (appendTieBreak s).map Prod.fst := by
  unfold appendTieBreak
  rw [any_id_invertSort]
  by_cases h : (s.any fun p => p.1 = "_id") = true
  · simp [h, map_fst_invertSort]
  · simp only [Bool.not_eq_true] at h
    simp [h, map_fst_invertSort]

theorem buildCursor_congr (d : Document) {s₁ s₂ : SortSpec}
    (h : s₁.map Prod.fst = s₂.map Prod.fst) :
    buildCursor d s₁ = buildCursor d s₂ := by
  rw [buildCursor_map_fst, buildCursor_map_fst, h]

theorem runPipeline_append (xs ys : List Stage) (docs : List Document) :
    runPipeline (xs ++ ys) docs = runPipeline ys (runPipeline xs docs) := by
  simp [runPipeline, List.foldl_append]

theorem fetchedDocuments_eq (collection : List Document) (pipeline : List Stage)
    (skip : Option Nat) (np : NormalizedParams) :
    fetchedDocuments collection pipeline skip np =
      (sortDocs np.sort
        (((runPipeline pipeline collection).filter
            (match np.cursor with
              | some c => buildQueryFromCursor np.sort c
              | none => fun _ => true)).drop (skip.getD 0))).take (np.limit + 1) := by
  rw [fetchedDocuments, runPipeline_append]
  rfl

theorem fetchedDocuments_length_le (collection : List Document) (pipeline : List Stage)
    (skip : Option Nat) (np : NormalizedParams) :
    (fetchedDocuments collection pipeline skip np).length ≤ np.limit + 1 := by
  rw [fetchedDocuments_eq]
  exact List.length_take_le ..

theorem map_snd_edges (l : List Document) (f : Document → String) :
    (l.map (fun d => (f d, d))).map Prod.snd = l := by
  induction l with
  | nil => rfl
  | cons a t ih => simp [ih]

/-! ### Sample data for the witnesses -/

/-- Sample document. -/
def sampleD1 : Document := [("x", .vInt 1), ("_id", .vInt 1)]

/-- Sample document. -/
def sampleD2 : Document := [("x", .vInt 2), ("_id", .vInt 2)]

/-- Sample document. -/
def sampleD3 : Document := [("x", .vInt 3), ("_id", .vInt 3)]

/-- Sample collection, deliberately out of sort order. -/
def sampleColl : List Document := [sampleD2, sampleD3, sampleD1]

/-- Sample caller sort specification: ascending on `x`. -/
def sampleSort : SortSpec := [("x", 1)]

/-- Normalized parameters of the forward call `first = 1`. -/
def sampleNpF1 : NormalizedParams :=
  { limit := 1, cursor := none, sort := [("x", 1), ("_id", 1)],
    paginatingBackwards := false }

/-- Normalized parameters of the forward call `first = 2`. -/
def sampleNpF2 : NormalizedParams :=
  { limit := 2, cursor := none, sort := [("x", 1), ("_id", 1)],
    paginatingBackwards := false }

/-- Normalized parameters of the backward call `last = 2`. -/
def sampleNpB2 : NormalizedParams :=
  { limit := 2, cursor := none, sort := [("x", -1), ("_id", 1)],
    paginatingBackwards := true }

/-! ### The claims -/

/-- C1: for every call that returns edges, each edge's cursor is the
encoding of the position extracted from the node using the caller's
original (non-inverted) sort specification — normalized with its `_id`
tie-break but with the caller's directions — even when the call paginates
backward and the internal sort order was inverted.  (Position extraction
reads only the sort's field names, so the inverted sort yields the same
position.) -/
theorem claim_C1 (collection : List Document) (pipeline : List Stage)
    (first : Option Nat) (after : Option String) (last : Option Nat)
    (before : Option String) (skip : Option Nat) (originalSort : SortSpec)
    (np : NormalizedParams) (r : AggregatePaginatedResult)
    (hn : normalizeDirectionParams first after last before originalSort = .ok np)
    (h : aggregatePaginated collection pipeline first after last before skip
      originalSort = .ok r) :
    ∀ e ∈ r.edges, e.1 = encodeCursor (buildCursor e.2 (appendTieBreak originalSort)) := by
  obtain ⟨hpb, hsort⟩ := normalize_ok_fields hn
  have hA := aggregate_ok_inv hn h
  subst hA
  rw [assemble_edges]
  intro e he
  simp only [List.mem_map] at he
  obtain ⟨d, _, rfl⟩ := he
  have hnames : np.sort.map Prod.fst = (appendTieBreak originalSort).map Prod.fst := by
    rw [hsort]
    cases hb : (last.isSome || before.isSome) with
    | true => simp only [if_pos rfl]; exact map_fst_appendTieBreak_invert originalSort
    | false => simp
  simp only
  rw [buildCursor_congr d hnames]

/-- Concrete instantiation of C1: a backward call (`last = 2`) on the
sample collection; every returned edge's cursor equals the encoding of
the node's position under the caller's non-inverted sort. -/
theorem claim_C1_witness :
    normalizeDirectionParams none none (some 2) none sampleSort = .ok sampleNpB2 ∧
    aggregatePaginated sampleColl [] none none (some 2) none none sampleSort =
      .ok (assembleConnection sampleColl [] none none none sampleNpB2) ∧
    ∀ e ∈ (assembleConnection sampleColl [] none none none sampleNpB2).edges,
      e.1 = encodeCursor (buildCursor e.2 (appendTieBreak sampleSort)) :=
  ⟨by decide, by decide,
    claim_C1 sampleColl [] none none (some 2) none none sampleSort sampleNpB2
      (assembleConnection sampleColl [] none none none sampleNpB2)
      (by decide) (by decide)⟩

/-- C2: the reported totalCount equals the number of documents matching
the caller-supplied pipeline alone; since that number does not mention
`skip`, `first`, `last`, `after` or `before`, it is the same whatever
those values are. -/
theorem claim_C2 (collection : List Document) (pipeline : List Stage)
    (first : Option Nat) (after : Option String) (last : Option Nat)
    (before : Option String) (skip : Option Nat) (originalSort : SortSpec)
    (r : AggregatePaginatedResult)
    (h : aggregatePaginated collection pipeline first after last before skip
      originalSort = .ok r) :
    r.pageInfo.totalCount = countDocuments collection pipeline := by
  cases hn : normalizeDirectionParams first after last before originalSort with
  | error e =>
    simp only [aggregatePaginated, hn] at h
    exact absurd h (by simp)
  | ok np =>
    have hA := aggregate_ok_inv hn h
    subst hA
    exact assemble_totalCount collection pipeline after before skip np

/-- Concrete instantiation of C2: `skip = 2, first = 1` on the 3-document
sample collection still reports `totalCount = 3`. -/
theorem claim_C2_witness :
    aggregatePaginated sampleColl [] (some 1) none none none (some 2) sampleSort =
      .ok (assembleConnection sampleColl [] none none (some 2) sampleNpF1) ∧
    (assembleConnection sampleColl [] none none (some 2) sampleNpF1).pageInfo.totalCount =
      countDocuments sampleColl [] ∧
    countDocuments sampleColl [] = 3 :=
  ⟨by decide,
    claim_C2 sampleColl [] (some 1) none none none (some 2) sampleSort
      (assembleConnection sampleColl [] none none (some 2) sampleNpF1) (by decide),
    by decide⟩

/-- C3: hasPreviousPage is the overfetch signal when paginating backward
and the presence of `after` otherwise; hasNextPage is the presence of
`before` when paginating backward and the overfetch signal otherwise. -/
theorem claim_C3 (collection : List Document) (pipeline : List Stage)
    (first : Option Nat) (after : Option String) (last : Option Nat)
    (before : Option String) (skip : Option Nat) (originalSort : SortSpec)
    (np : NormalizedParams) (r : AggregatePaginatedResult)
    (hn : normalizeDirectionParams first after last before originalSort = .ok np)
    (h : aggregatePaginated collection pipeline first after last before skip
      originalSort = .ok r) :
    r.pageInfo.hasPreviousPage =
      (if np.paginatingBackwards
        then hasMoreOf (fetchedDocuments collection pipeline skip np) np.limit
        else after.isSome) ∧
    r.pageInfo.hasNextPage =
      (if np.paginatingBackwards
        then before.isSome
        else hasMoreOf (fetchedDocuments collection pipeline skip np) np.limit) := by
  have hA := aggregate_ok_inv hn h
  subst hA
  exact ⟨assemble_hasPrev collection pipeline after before skip np,
    assemble_hasNext collection pipeline after before skip np⟩

/-- Concrete instantiation of C3: the backward call `last = 2` has
hasPreviousPage given by the overfetch signal and hasNextPage given by
the (absent) `before`. -/
theorem claim_C3_witness :
    normalizeDirectionParams none none (some 2) none sampleSort = .ok sampleNpB2 ∧
    aggregatePaginated sampleColl [] none none (some 2) none none sampleSort =
      .ok (assembleConnection sampleColl [] none none none sampleNpB2) ∧
    ((assembleConnection sampleColl [] none none none sampleNpB2).pageInfo.hasPreviousPage =
      (if sampleNpB2.paginatingBackwards
        then hasMoreOf (fetchedDocuments sampleColl [] none sampleNpB2) sampleNpB2.limit
        else (none : Option String).isSome) ∧
    (assembleConnection sampleColl [] none none none sampleNpB2).pageInfo.hasNextPage =
      (if sampleNpB2.paginatingBackwards
        then (none : Option String).isSome
        else hasMoreOf (fetchedDocuments sampleColl [] none sampleNpB2) sampleNpB2.limit)) :=
  ⟨by decide, by decide,
    claim_C3 sampleColl [] none none (some 2) none none sampleSort sampleNpB2
      (assembleConnection sampleColl [] none none none sampleNpB2)
      (by decide) (by decide)⟩

/-- C4: when the data query returns `limit + 1` documents, the overfetch
signal is set, the visible nodes are exactly the first `limit` fetched
documents (reversed when paginating backward), and the page's count is
`limit` — the extra document is discarded. -/
theorem claim_C4 (collection : List Document) (pipeline : List Stage)
    (first : Option Nat) (after : Option String) (last : Option Nat)
    (before : Option String) (skip : Option Nat) (originalSort : SortSpec)
    (np : NormalizedParams) (r : AggregatePaginatedResult)
    (hn : normalizeDirectionParams first after last before originalSort = .ok np)
    (h : aggregatePaginated collection pipeline first after last before skip
      originalSort = .ok r)
    (hlen : (fetchedDocuments collection pipeline skip np).length = np.limit + 1) :
    hasMoreOf (fetchedDocuments collection pipeline skip np) np.limit = true ∧
    r.edges.map Prod.snd =
      (if np.paginatingBackwards
        then ((fetchedDocuments collection pipeline skip np).take np.limit).reverse
        else (fetchedDocuments collection pipeline skip np).take np.limit) ∧
    r.pageInfo.count = np.limit := by
  have hA := aggregate_ok_inv hn h
  subst hA
  refine ⟨?_, ?_, ?_⟩
  · have hlt : np.limit < (fetchedDocuments collection pipeline skip np).length := by
      omega
    rw [hasMoreOf, List.getElem?_eq_getElem hlt]
    rfl
  · rw [assemble_edges, map_snd_edges]
  · rw [assemble_count]
    cases hb : np.paginatingBackwards <;>
      simp [hb, List.length_reverse, List.length_take, hlen]

/-- Concrete instantiation of C4: `first = 1` on the 3-document sample
collection fetches 2 documents; the extra one only sets the overfetch
signal. -/
theorem claim_C4_witness :
    (fetchedDocuments sampleColl [] none sampleNpF1).length = sampleNpF1.limit + 1 ∧
    (hasMoreOf (fetchedDocuments sampleColl [] none sampleNpF1) sampleNpF1.limit = true ∧
    (assembleConnection sampleColl [] none none none sampleNpF1).edges.map Prod.snd =
      (if sampleNpF1.paginatingBackwards
        then ((fetchedDocuments sampleColl [] none sampleNpF1).take sampleNpF1.limit).reverse
        else (fetchedDocuments sampleColl [] none sampleNpF1).take sampleNpF1.limit) ∧
    (assembleConnection sampleColl [] none none none sampleNpF1).pageInfo.count =
      sampleNpF1.limit) :=
  ⟨by decide,
    claim_C4 sampleColl [] (some 1) none none none none sampleSort sampleNpF1
      (assembleConnection sampleColl [] none none none sampleNpF1)
      (by decide) (by decide) (by decide)⟩

/-- C5: the visible result set is reversed before the edges are built
exactly when paginating backward; on forward calls the fetched order is
kept unchanged. -/
theorem claim_C5 (collection : List Document) (pipeline : List Stage)
    (first : Option Nat) (after : Option String) (last : Option Nat)
    (before : Option String) (skip : Option Nat) (originalSort : SortSpec)
    (np : NormalizedParams) (r : AggregatePaginatedResult)
    (hn : normalizeDirectionParams first after last before originalSort = .ok np)
    (h : aggregatePaginated collection pipeline first after last before skip
      originalSort = .ok r) :
    r.edges.map Prod.snd =
      (if np.paginatingBackwards
        then ((fetchedDocuments collection pipeline skip np).take np.limit).reverse
        else (fetchedDocuments collection pipeline skip np).take np.limit) := by
  have hA := aggregate_ok_inv hn h
  subst hA
  rw [assemble_edges, map_snd_edges]

/-- Concrete instantiation of C5: the backward call `last = 2` returns
the trimmed fetch reversed back into the caller's ascending order. -/
theorem claim_C5_witness :
    aggregatePaginated sampleColl [] none none (some 2) none none sampleSort =
      .ok (assembleConnection sampleColl [] none none none sampleNpB2) ∧
    (assembleConnection sampleColl [] none none none sampleNpB2).edges.map Prod.snd =
      (if sampleNpB2.paginatingBackwards
        then ((fetchedDocuments sampleColl [] none sampleNpB2).take sampleNpB2.limit).reverse
        else (fetchedDocuments sampleColl [] none sampleNpB2).take sampleNpB2.limit) ∧
    (assembleConnection sampleColl [] none none none sampleNpB2).edges.map Prod.snd =
      [sampleD2, sampleD3] :=
  ⟨by decide,
    claim_C5 sampleColl [] none none (some 2) none none sampleSort sampleNpB2
      (assembleConnection sampleColl [] none none none sampleNpB2)
      (by decide) (by decide),
    by decide⟩

/-- C6: the data query is the caller's pipeline followed, in order, by the
cursor match stage (universal predicate when no cursor), the skip stage,
the sort stage and a limit of `limit + 1`; running it means filtering the
pipeline's output, dropping `skip`, sorting, and taking `limit + 1`. -/
theorem claim_C6 (collection : List Document) (pipeline : List Stage)
    (skip : Option Nat) (np : NormalizedParams) :
    fetchedDocuments collection pipeline skip np =
      runPipeline (pipeline ++
        [ .matchStage (match np.cursor with
            | some c => buildQueryFromCursor np.sort c
            | none => fun _ => true),
          .skipStage (skip.getD 0),
          .sortStage np.sort,
          .limitStage (np.limit + 1) ]) collection ∧
    fetchedDocuments collection pipeline skip np =
      (sortDocs np.sort
        (((runPipeline pipeline collection).filter
            (match np.cursor with
              | some c => buildQueryFromCursor np.sort c
              | none => fun _ => true)).drop (skip.getD 0))).take (np.limit + 1) :=
  ⟨rfl, fetchedDocuments_eq collection pipeline skip np⟩

/-- Cursor of the sample document `sampleD2` under the active forward
sort, used as a `before` argument. -/
def sampleBeforeCursor : String := encodeCursor [("x", .vInt 2), ("_id", .vInt 2)]

/-- C7 counterexample: a backward call (`last = 1`) with a supplied
`before` cursor on an empty collection returns `hasPreviousPage = false`,
not the presence of `before` — backward `hasPreviousPage` is the
overfetch signal, and the supplied-argument rule feeds `hasNextPage`
instead. -/
theorem claim_C7_counterexample :
    (aggregatePaginated [] [] none none (some 1) (some sampleBeforeCursor) none
        sampleSort).map (fun r => (r.edges, r.pageInfo.hasPreviousPage)) =
      .ok ([], false) ∧
    (some sampleBeforeCursor : Option String).isSome = true ∧
    ¬ ((false : Bool) = (some sampleBeforeCursor : Option String).isSome) := by
  refine ⟨by decide, rfl, by decide⟩

/-- C7 (amended): a call whose data query matches no documents returns
`edges = []`, null start and end cursors, and — per the asymmetric rule —
on forward calls `hasNextPage = false` with `hasPreviousPage` the
presence of `after`, while on backward calls `hasPreviousPage = false`
(the overfetch signal is empty) with `hasNextPage` the presence of
`before`. -/
theorem claim_C7 (collection : List Document) (pipeline : List Stage)
    (first : Option Nat) (after : Option String) (last : Option Nat)
    (before : Option String) (skip : Option Nat) (originalSort : SortSpec)
    (np : NormalizedParams) (r : AggregatePaginatedResult)
    (hn : normalizeDirectionParams first after last before originalSort = .ok np)
    (h : aggregatePaginated collection pipeline first after last before skip
      originalSort = .ok r)
    (hempty : fetchedDocuments collection pipeline skip np = []) :
    r.edges = [] ∧
    r.pageInfo.startCursor = none ∧
    r.pageInfo.endCursor = none ∧
    (np.paginatingBackwards = false →
      r.pageInfo.hasNextPage = false ∧ r.pageInfo.hasPreviousPage = after.isSome) ∧
    (np.paginatingBackwards = true →
      r.pageInfo.hasPreviousPage = false ∧ r.pageInfo.hasNextPage = before.isSome) := by
  have hA := aggregate_ok_inv hn h
  subst hA
  have hm : hasMoreOf (fetchedDocuments collection pipeline skip np) np.limit = false := by
    simp [hasMoreOf, hempty]
  have hedges : (assembleConnection collection pipeline after before skip np).edges = [] := by
    rw [assemble_edges, hempty]
    cases hb : np.paginatingBackwards <;> simp
  refine ⟨hedges, ?_, ?_, ?_, ?_⟩
  · rw [assemble_startCursor, hedges]
    rfl
  · rw [assemble_endCursor, hedges]
    rfl
  · intro hpb
    rw [assemble_hasNext, assemble_hasPrev, hpb]
    simp [hm]
  · intro hpb
    rw [assemble_hasNext, assemble_hasPrev, hpb]
    simp [hm]

/-- Concrete instantiation of the amended C7: a forward call on an empty
collection. -/
theorem claim_C7_witness :
    normalizeDirectionParams (some 1) none none none sampleSort = .ok sampleNpF1 ∧
    aggregatePaginated [] [] (some 1) none none none none sampleSort =
      .ok (assembleConnection [] [] none none none sampleNpF1) ∧
    fetchedDocuments [] [] none sampleNpF1 = [] ∧
    ((assembleConnection [] [] none none none sampleNpF1).edges = [] ∧
    (assembleConnection [] [] none none none sampleNpF1).pageInfo.startCursor = none ∧
    (assembleConnection [] [] none none none sampleNpF1).pageInfo.endCursor = none ∧
    (sampleNpF1.paginatingBackwards = false →
      (assembleConnection [] [] none none none sampleNpF1).pageInfo.hasNextPage = false ∧
      (assembleConnection [] [] none none none sampleNpF1).pageInfo.hasPreviousPage =
        (none : Option String).isSome) ∧
    (sampleNpF1.paginatingBackwards = true →
      (assembleConnection [] [] none none none sampleNpF1).pageInfo.hasPreviousPage = false ∧
      (assembleConnection [] [] none none none sampleNpF1).pageInfo.hasNextPage =
        (none : Option String).isSome)) :=
  ⟨by decide, by decide, by decide,
    claim_C7 [] [] (some 1) none none none none sampleSort sampleNpF1
      (assembleConnection [] [] none none none sampleNpF1)
      (by decide) (by decide) (by decide)⟩

/-- C8: decoding the encoding of any position yields the position again. -/
theorem claim_C8 (p : Position) : decodeCursor (encodeCursor p) = some p := by
  rw [encodeCursor, decodeCursor, string_mk_data]
  exact decPos_encPos p

/-- C9: when the fetch returns at most `limit` documents, the probe at
index `limit` totally yields no document, the overfetch signal is false,
and every fetched document is visible (the whole fetch, reversed on
backward calls, is the node list); moreover the overfetch signal is true
exactly when the fetch has `limit + 1` entries. -/
theorem claim_C9 (collection : List Document) (pipeline : List Stage)
    (first : Option Nat) (after : Option String) (last : Option Nat)
    (before : Option String) (skip : Option Nat) (originalSort : SortSpec)
    (np : NormalizedParams) (r : AggregatePaginatedResult)
    (hn : normalizeDirectionParams first after last before originalSort = .ok np)
    (h : aggregatePaginated collection pipeline first after last before skip
      originalSort = .ok r) :
    ((fetchedDocuments collection pipeline skip np).length ≤ np.limit →
      (fetchedDocuments collection pipeline skip np)[np.limit]? = none ∧
      hasMoreOf (fetchedDocuments collection pipeline skip np) np.limit = false ∧
      r.edges.map Prod.snd =
        (if np.paginatingBackwards
          then (fetchedDocuments collection pipeline skip np).reverse
          else fetchedDocuments collection pipeline skip np)) ∧
    (hasMoreOf (fetchedDocuments collection pipeline skip np) np.limit = true ↔
      (fetchedDocuments collection pipeline skip np).length = np.limit + 1) := by
  have hA := aggregate_ok_inv hn h
  subst hA
  have hb := fetchedDocuments_length_le collection pipeline skip np
  constructor
  · intro hle
    have h1 : (fetchedDocuments collection pipeline skip np)[np.limit]? = none :=
      List.getElem?_eq_none hle
    refine ⟨h1, by simp [hasMoreOf, h1], ?_⟩
    rw [assemble_edges, map_snd_edges]
    simp only [List.take_of_length_le hle]
  · constructor
    · intro ht
      by_contra hne
      have hle : (fetchedDocuments collection pipeline skip np).length ≤ np.limit := by
        omega
      rw [hasMoreOf, List.getElem?_eq_none hle] at ht
      simp at ht
    · intro hlen
      have hlt : np.limit < (fetchedDocuments collection pipeline skip np).length := by
        omega
      rw [hasMoreOf, List.getElem?_eq_getElem hlt]
      rfl

/-- Concrete instantiation of C9: `first = 2` on a single-document
collection fetches one document, the probe slot is empty, and the lone
document is visible. -/
theorem claim_C9_witness :
    (fetchedDocuments [sampleD1] [] none sampleNpF2).length ≤ sampleNpF2.limit ∧
    (((fetchedDocuments [sampleD1] [] none sampleNpF2).length ≤ sampleNpF2.limit →
      (fetchedDocuments [sampleD1] [] none sampleNpF2)[sampleNpF2.limit]? = none ∧
      hasMoreOf (fetchedDocuments [sampleD1] [] none sampleNpF2) sampleNpF2.limit = false ∧
      (assembleConnection [sampleD1] [] none none none sampleNpF2).edges.map Prod.snd =
        (if sampleNpF2.paginatingBackwards
          then (fetchedDocuments [sampleD1] [] none sampleNpF2).reverse
          else fetchedDocuments [sampleD1] [] none sampleNpF2)) ∧
    (hasMoreOf (fetchedDocuments [sampleD1] [] none sampleNpF2) sampleNpF2.limit = true ↔
      (fetchedDocuments [sampleD1] [] none sampleNpF2).length = sampleNpF2.limit + 1)) :=
  ⟨by decide,
    claim_C9 [sampleD1] [] (some 2) none none none none sampleSort sampleNpF2
      (assembleConnection [sampleD1] [] none none none sampleNpF2)
      (by decide) (by decide)⟩

/-- C10: a forward request supplying `first` and no cursor reports
`hasPreviousPage = false` whatever the skip value, even when skipped
documents precede the returned page. -/
theorem claim_C10 (collection : List Document) (pipeline : List Stage)
    (f : Nat) (skip : Option Nat) (originalSort : SortSpec)
    (r : AggregatePaginatedResult)
    (h : aggregatePaginated collection pipeline (some f) none none none skip
      originalSort = .ok r) :
    r.pageInfo.hasPreviousPage = false := by
  have hn : normalizeDirectionParams (some f) none none none originalSort =
      .ok { limit := f, cursor := none, sort := appendTieBreak originalSort,
            paginatingBackwards := false } := rfl
  have hA := aggregate_ok_inv hn h
  subst hA
  rw [assemble_hasPrev]
  rfl

/-- Concrete instantiation of C10: `first = 1, skip = 2` on the
3-document sample collection — two documents precede the returned page,
yet hasPreviousPage is false. -/
theorem claim_C10_witness :
    aggregatePaginated sampleColl [] (some 1) none none none (some 2) sampleSort =
      .ok (assembleConnection sampleColl [] none none (some 2) sampleNpF1) ∧
    (assembleConnection sampleColl [] none none (some 2) sampleNpF1).pageInfo.count = 1 ∧
    countDocuments sampleColl [] = 3 ∧
    (assembleConnection sampleColl [] none none (some 2)
        sampleNpF1).pageInfo.hasPreviousPage = false :=
  ⟨by decide, by decide, by decide,
    claim_C10 sampleColl [] 1 (some 2) sampleSort
      (assembleConnection sampleColl [] none none (some 2) sampleNpF1) (by decide)⟩

end MongoPagination
